import Mathlib

/-!
Verification development for the multi-site guitar-tab extraction engine
(`api/lib/parser.js`, `api/lib/siteConfig.js`, `api/search.js`).

The JavaScript source is shallowly embedded: strings are Lean `String`s
(lists of Unicode scalar characters), the regular expressions of the source
are transcribed literally into a small backtracking regex engine whose
preference order mirrors the ECMAScript one (leftmost position, left
alternative first, greedy quantifiers longest-first, lazy quantifiers
shortest-first, repetition bodies must consume at least one character),
and the one throwing operation reachable from the engine entry point
(the `new URL(url)` platform constructor) is modelled as an `Option`.
JavaScript numbers are modelled as exact rationals (`ℚ`); the only
arithmetic the engine performs on them is a division, a comparison
against 0.05 and a rounding to two decimals, all far from the regions
where binary64 rounding could disagree with ℚ for the modest counts
produced by realistic inputs.
-/

set_option maxRecDepth 10000

namespace Gita

/-! Character classes of the ECMAScript regex dialect (no `u` flag):
`\w` is [A-Za-z0-9_], `\s` is the WhiteSpace ∪ LineTerminator set, and
`.` matches everything except line terminators. -/

def isWordChar (c : Char) : Bool :=
  (0x41 ≤ c.toNat && c.toNat ≤ 0x5a) || (0x61 ≤ c.toNat && c.toNat ≤ 0x7a) ||
  (0x30 ≤ c.toNat && c.toNat ≤ 0x39) || c.toNat == 0x5f

def jsWhitespace (c : Char) : Bool :=
  c.toNat == 0x20 || c.toNat == 0x9 || c.toNat == 0xa || c.toNat == 0xb ||
  c.toNat == 0xc || c.toNat == 0xd ||
  c.toNat == 0xa0 || c.toNat == 0x1680 || (0x2000 ≤ c.toNat && c.toNat ≤ 0x200a) ||
  c.toNat == 0x2028 || c.toNat == 0x2029 || c.toNat == 0x202f || c.toNat == 0x205f ||
  c.toNat == 0x3000 || c.toNat == 0xfeff

def lineTermChar (c : Char) : Bool :=
  c.toNat == 0xa || c.toNat == 0xd || c.toNat == 0x2028 || c.toNat == 0x2029

def dotChar (c : Char) : Bool := !(lineTermChar c)

/-! Plain list-of-characters string helpers mirroring the JavaScript
string methods used by the source (`includes`, `endsWith`, one-shot
`replace` with a string pattern, `split` variants, `trim`). -/

def isPrefixL : List Char → List Char → Bool
  | [], _ => true
  | _ :: _, [] => false
  | p :: ps, c :: cs => p == c && isPrefixL ps cs

def containsL (s pat : List Char) : Bool :=
  match s with
  | [] => isPrefixL pat []
  | _ :: rest => isPrefixL pat s || containsL rest pat

def endsWithL (s pat : List Char) : Bool :=
  isPrefixL pat.reverse s.reverse

/-- One-shot `String.prototype.replace` with a *string* pattern: replaces
only the first occurrence, left to right. -/
def replaceOnceL (pat rep : List Char) : List Char → List Char
  | [] => []
  | c :: rest =>
    if isPrefixL pat (c :: rest) then
      rep ++ (c :: rest).drop pat.length
    else
      c :: replaceOnceL pat rep rest

/-- Prepend a character onto the first piece of a split result. -/
def consHead (c : Char) : List (List Char) → List (List Char)
  | [] => [[c]]
  | piece :: more => (c :: piece) :: more

/-- JavaScript `split(c)` with a single-character separator string:
yields one (possibly empty) piece per separator gap; the empty input
yields `[""]`. -/
def splitChL (sep : Char) : List Char → List (List Char)
  | [] => [[]]
  | c :: rest =>
    if c == sep then [] :: splitChL sep rest
    else consHead c (splitChL sep rest)

/-- JavaScript `split(/[...]/)` with a single-character class: one cut per
matching character. -/
def splitClsL (p : Char → Bool) : List Char → List (List Char)
  | [] => [[]]
  | c :: rest =>
    if p c then [] :: splitClsL p rest
    else consHead c (splitClsL p rest)

/-- JavaScript `split(/\s+/)`: cuts at every maximal whitespace run, so a
leading or trailing run contributes an empty piece, and the empty string
yields `[""]`. -/
def splitWsL : List Char → List (List Char)
  | [] => [[]]
  | c :: rest =>
    if jsWhitespace c then
      match rest with
      | [] => [[], []]
      | d :: _ =>
        if jsWhitespace d then splitWsL rest
        else [] :: splitWsL rest
    else consHead c (splitWsL rest)

def jsTrimL (s : List Char) : List Char :=
  ((s.dropWhile jsWhitespace).reverse.dropWhile jsWhitespace).reverse

/-! String-level wrappers. -/

def strL (l : List Char) : String := String.mk l

def containsSub (s pat : String) : Bool := containsL s.data pat.data

def endsWithSub (s pat : String) : Bool := endsWithL s.data pat.data

def replaceOnceSub (s pat rep : String) : String :=
  strL (replaceOnceL pat.data rep.data s.data)

def jsTrim (s : String) : String := strL (jsTrimL s.data)

def splitNl (s : String) : List String := (splitChL '\n' s.data).map strL

def splitCls (p : Char → Bool) (s : String) : List String :=
  (splitClsL p s.data).map strL

def splitWs (s : String) : List String := (splitWsL s.data).map strL

/-! A small backtracking regex engine.  Each regular expression of the
JavaScript source is transcribed literally into an `RE` value.  The list
returned by `reMatches` enumerates the candidate matches at the current
position in the ECMAScript backtracking preference order: left
alternative first, greedy repetition longest-first, lazy repetition
shortest-first, and a repetition iteration must consume at least one
character (the ES RepeatMatcher aborts an iteration that matched
empty).  Assertions (`\b`, multiline `^`, `$`) consume nothing; the
character preceding the current position is threaded through as `prev`
so that word boundaries and line starts can be decided locally. -/

inductive RE where
  | eps
  | cls (p : Char → Bool)
  | seq (a b : RE)
  | alt (a b : RE)
  | star (greedy : Bool) (a : RE)
  | grp (i : Nat) (a : RE)
  | wb
  | bol
  | eol

/-- One candidate match: the consumed characters, the remaining input,
and the captured groups (index, captured characters). -/
structure MRes where
  consumed : List Char
  rest : List Char
  caps : List (Nat × List Char)

def lastOr (prev : Option Char) (p : List Char) : Option Char :=
  match p.getLast? with
  | some c => some c
  | none => prev

def wbHolds (prev : Option Char) (s : List Char) : Bool :=
  let a := match prev with
    | some c => isWordChar c
    | none => false
  let b := match s with
    | c :: _ => isWordChar c
    | [] => false
  a != b

def bolHolds (prev : Option Char) : Bool :=
  match prev with
  | none => true
  | some c => lineTermChar c

/-- Fuel-bounded repetition: at most `fuel` further iterations, each
iteration required to consume at least one character, so fuel equal to
the input length is always enough. -/
def starMs (f : Option Char → List Char → List MRes) (greedy : Bool) :
    Nat → Option Char → List Char → List MRes
  | 0, _, s => [⟨[], s, []⟩]
  | fuel + 1, prev, s =>
    let deeper := ((f prev s).filter (fun m => !m.consumed.isEmpty)).flatMap fun m =>
      (starMs f greedy fuel (lastOr prev m.consumed) m.rest).map fun m2 =>
        ⟨m.consumed ++ m2.consumed, m2.rest, m.caps ++ m2.caps⟩
    if greedy then deeper ++ [⟨[], s, []⟩] else ⟨[], s, []⟩ :: deeper

def reMatches : RE → Option Char → List Char → List MRes
  | .eps, _, s => [⟨[], s, []⟩]
  | .cls _, _, [] => []
  | .cls p, _, c :: cs => if p c then [⟨[c], cs, []⟩] else []
  | .wb, prev, s => if wbHolds prev s then [⟨[], s, []⟩] else []
  | .bol, prev, s => if bolHolds prev then [⟨[], s, []⟩] else []
  | .eol, _, s => if s.isEmpty then [⟨[], s, []⟩] else []
  | .alt a b, prev, s => reMatches a prev s ++ reMatches b prev s
  | .seq a b, prev, s =>
    (reMatches a prev s).flatMap fun m =>
      (reMatches b (lastOr prev m.consumed) m.rest).map fun m2 =>
        ⟨m.consumed ++ m2.consumed, m2.rest, m.caps ++ m2.caps⟩
  | .grp i a, prev, s =>
    (reMatches a prev s).map fun m => ⟨m.consumed, m.rest, (i, m.consumed) :: m.caps⟩
  | .star g a, prev, s => starMs (fun pv t => reMatches a pv t) g (s.length + 1) prev s

/-- Global scan, as `String.prototype.match` with the `g` flag: leftmost
match, continue after its end, advance by one position after an empty
match.  Fuel `s.length + 1` is always enough. -/
def scanStep (re : RE) (next : Option Char → List Char → List MRes)
    (prev : Option Char) (s : List Char) : List MRes :=
  match (reMatches re prev s).head? with
  | some m =>
    if m.consumed.isEmpty then
      match s with
      | [] => [m]
      | c :: rest => m :: next (some c) rest
    else m :: next (lastOr prev m.consumed) m.rest
  | none =>
    match s with
    | [] => []
    | c :: rest => next (some c) rest

def scanFrom (re : RE) : Nat → Option Char → List Char → List MRes
  | 0, _, _ => []
  | fuel + 1, prev, s => scanStep re (scanFrom re fuel) prev s

def scanAll (re : RE) (s : String) : List MRes :=
  scanFrom re (s.data.length + 1) none s.data

def jsMatchAll (re : RE) (s : String) : List String :=
  (scanAll re s).map (fun m => strL m.consumed)

def jsMatchFirst (re : RE) (s : String) : Option MRes := (scanAll re s).head?

def jsTest (re : RE) (s : String) : Bool := !(scanAll re s).isEmpty

def capGet (m : MRes) (i : Nat) : Option String :=
  (m.caps.find? (fun pr => pr.1 == i)).map (fun pr => strL pr.2)

def matchedStr (m : MRes) : String := strL m.consumed

/-- Global `String.prototype.replace` with a constant replacement. -/
def replScanL (re : RE) (rep : List Char) : Nat → Option Char → List Char → List Char
  | 0, _, s => s
  | fuel + 1, prev, s =>
    match (reMatches re prev s).head? with
    | some m =>
      if m.consumed.isEmpty then
        match s with
        | [] => rep
        | c :: rest => rep ++ c :: replScanL re rep fuel (some c) rest
      else rep ++ replScanL re rep fuel (lastOr prev m.consumed) m.rest
    | none =>
      match s with
      | [] => []
      | c :: rest => c :: replScanL re rep fuel (some c) rest

def jsReplaceAll (re : RE) (rep : String) (s : String) : String :=
  strL (replScanL re rep.data (s.data.length + 1) none s.data)

/-- Non-global `String.prototype.replace`: first match only. -/
def replFirstL (re : RE) (rep : List Char) : Nat → Option Char → List Char → List Char
  | 0, _, s => s
  | fuel + 1, prev, s =>
    match (reMatches re prev s).head? with
    | some m =>
      if m.consumed.isEmpty then rep ++ s else rep ++ m.rest
    | none =>
      match s with
      | [] => []
      | c :: rest => c :: replFirstL re rep fuel (some c) rest

def jsReplaceFirst (re : RE) (rep : String) (s : String) : String :=
  strL (replFirstL re rep.data (s.data.length + 1) none s.data)

/-! Combinators used to transcribe the source regexes. -/

def rchar (c : Char) : RE := .cls (fun x => x == c)

def ciChar (c : Char) : RE := .cls (fun x => x == c.toLower || x == c.toUpper)

def rstr (s : String) : RE := s.data.foldr (fun c r => .seq (rchar c) r) .eps

def rstrCI (s : String) : RE := s.data.foldr (fun c r => .seq (ciChar c) r) .eps

def ropt (a : RE) : RE := .alt a .eps

def rplus (a : RE) : RE := .seq a (.star true a)

def rplusLazy (a : RE) : RE := .seq a (.star false a)

def oneOf (s : String) : RE := .cls (fun c => s.data.contains c)

def noneOf (s : String) : RE := .cls (fun c => !s.data.contains c)

def anyStarLazy : RE := .star false (.cls (fun _ => true))

def isDigitCh (c : Char) : Bool := 0x30 ≤ c.toNat && c.toNat ≤ 0x39

def isNoteAG (c : Char) : Bool := 0x41 ≤ c.toNat && c.toNat ≤ 0x47


/-! Literal transcriptions of the regular expressions of
`api/lib/parser.js` and of `validateContent` in `api/search.js`.  Each
definition's comment quotes the source pattern; capturing groups are
tagged with `grp` only where the source consults them. -/

/-- Quality alternation of CHORD_REGEX: (m|maj|min|dim|aug|sus|add|M). -/
def chordQualityRe : RE :=
  .alt (rstr "m") (.alt (rstr "maj") (.alt (rstr "min") (.alt (rstr "dim")
    (.alt (rstr "aug") (.alt (rstr "sus") (.alt (rstr "add") (rstr "M")))))))

/-- Accidental class [#b]. -/
def accidentalRe : RE := oneOf "#b"

/-- CHORD_REGEX (parser.js) = chordRegex (search.js validateContent):
\b[A-G][#b]?(m|maj|min|dim|aug|sus|add|M)?[0-9]?(\([^)]*\))?(\/[A-G][#b]?)?\b with g. -/
def chordRe : RE :=
  .seq .wb (.seq (.cls isNoteAG) (.seq (ropt accidentalRe)
    (.seq (ropt chordQualityRe) (.seq (ropt (.cls isDigitCh))
      (.seq (ropt (.seq (rchar '(') (.seq (.star true (noneOf ")")) (rchar ')'))))
        (.seq (ropt (.seq (rchar '/') (.seq (.cls isNoteAG) (ropt accidentalRe)))) .wb))))))

/-- Body class of tabLineRegex: [-0-9h/\\pbr~()\s]. -/
def tabBodyChar (c : Char) : Bool :=
  c == '-' || isDigitCh c || c == 'h' || c == '/' || c == '\\' || c == 'p' ||
  c == 'b' || c == 'r' || c == '~' || c == '(' || c == ')' || jsWhitespace c

/-- tabLineRegex (detectTabType): [eEBGDA]\|[-0-9h/\\pbr~()\s]+\| with g. -/
def tabLineRe : RE :=
  .seq (oneOf "eEBGDA") (.seq (rchar '|') (.seq (rplus (.cls tabBodyChar)) (rchar '|')))

/-- Quality alternation of looksLikeChordLine:
(?:m|maj7?|m7|7|sus[24]?|dim|aug|add9?|M7). -/
def chordProQualityRe : RE :=
  .alt (rstr "m") (.alt (.seq (rstr "maj") (ropt (rchar '7'))) (.alt (rstr "m7")
    (.alt (rstr "7") (.alt (.seq (rstr "sus") (ropt (oneOf "24"))) (.alt (rstr "dim")
      (.alt (rstr "aug") (.alt (.seq (rstr "add") (ropt (rchar '9'))) (rstr "M7"))))))))

/-- looksLikeChordLine pattern:
\[[A-G](?:#|b)?(?:m|maj7?|m7|7|sus[24]?|dim|aug|add9?|M7)?(?:\/[A-G](?:#|b)?)?\]. -/
def chordProMarkRe : RE :=
  .seq (rchar '[') (.seq (.cls isNoteAG) (.seq (ropt (.alt (rchar '#') (rchar 'b')))
    (.seq (ropt chordProQualityRe)
      (.seq (ropt (.seq (rchar '/') (.seq (.cls isNoteAG) (ropt (.alt (rchar '#') (rchar 'b'))))))
        (rchar ']')))))

/-- Tail of an opening tag: [^>]* followed by the closing angle bracket. -/
def tagOpenRest : RE := .seq (.star true (noneOf ">")) (rchar '>')

/-- Title pattern <title>([^<]+)<\/title> with i. -/
def titleRe : RE :=
  .seq (rstrCI "<title>") (.seq (.grp 1 (rplus (noneOf "<"))) (rstrCI "</title>"))

/-- Generic pre-block pattern <pre[^>]*>([\s\S]*?)<\/pre> with gi (no word
boundary after pre, as in parseGeneric and parseChordWiki). -/
def preRe : RE :=
  .seq (rstrCI "<pre") (.seq tagOpenRest (.seq (.grp 1 anyStarLazy) (rstrCI "</pre>")))

/-- Tag-stripping pattern <\/?pre[^>]*> with gi. -/
def preTagRe : RE :=
  .seq (rchar '<') (.seq (ropt (rchar '/')) (.seq (rstrCI "pre") tagOpenRest))

/-- Code-block pattern <code[^>]*>([\s\S]*?)<\/code> with gi. -/
def codeRe : RE :=
  .seq (rstrCI "<code") (.seq tagOpenRest (.seq (.grp 1 anyStarLazy) (rstrCI "</code>")))

/-- Tag-stripping pattern <\/?code[^>]*> with gi. -/
def codeTagRe : RE :=
  .seq (rchar '<') (.seq (ropt (rchar '/')) (.seq (rstrCI "code") tagOpenRest))

/-- Ultimate-Guitar pre pattern
<pre[^>]*class="[^"]*tK8GG[^"]*"[^>]*>([\s\S]*?)<\/pre> with i. -/
def ugPreRe : RE :=
  .seq (rstrCI "<pre") (.seq (.star true (noneOf ">")) (.seq (rstrCI "class=\"")
    (.seq (.star true (noneOf "\"")) (.seq (rstrCI "tK8GG") (.seq (.star true (noneOf "\""))
      (.seq (rchar '"') (.seq (.star true (noneOf ">")) (.seq (rchar '>')
        (.seq (.grp 1 anyStarLazy) (rstrCI "</pre>"))))))))))

/-- Heading pattern <h1[^>]*>([^<]+)<\/h1> with i. -/
def h1Re : RE :=
  .seq (rstrCI "<h1") (.seq tagOpenRest (.seq (.grp 1 (rplus (noneOf "<"))) (rstrCI "</h1>")))

/-- Artist pattern by\s*<a[^>]*>([^<]+)<\/a> with i. -/
def byRe : RE :=
  .seq (rstrCI "by") (.seq (.star true (.cls jsWhitespace)) (.seq (rstrCI "<a")
    (.seq tagOpenRest (.seq (.grp 1 (rplus (noneOf "<"))) (rstrCI "</a>")))))

/-- J-Total tt pattern <tt\b[^>]*>([\s\S]*?)<\/tt> with gi. -/
def ttRe : RE :=
  .seq (rstrCI "<tt") (.seq .wb (.seq tagOpenRest (.seq (.grp 1 anyStarLazy) (rstrCI "</tt>"))))

/-- J-Total pre pattern <pre\b[^>]*>([\s\S]*?)<\/pre> with gi (this one
does carry the word boundary). -/
def preWbRe : RE :=
  .seq (rstrCI "<pre") (.seq .wb (.seq tagOpenRest (.seq (.grp 1 anyStarLazy) (rstrCI "</pre>"))))

/-- Line-break pattern <br\s*\/?> with gi. -/
def brRe : RE :=
  .seq (rstrCI "<br") (.seq (.star true (.cls jsWhitespace)) (.seq (ropt (rchar '/')) (rchar '>')))

/-- Paragraph-close pattern <\/p> with gi. -/
def pCloseRe : RE := rstrCI "</p>"

/-- Any-tag pattern <[^>]+> with g. -/
def anyTagRe : RE := .seq (rchar '<') (.seq (rplus (noneOf ">")) (rchar '>'))

/-- Pattern [ \t]+\n with g (htmlToTextBlock cleanup). -/
def spaceTabNlRe : RE := .seq (rplus (oneOf " \t")) (rchar '\n')

/-- Pattern \n{3,} with g (blank-line collapsing). -/
def nl3Re : RE := .seq (rchar '\n') (.seq (rchar '\n') (rplus (rchar '\n')))

/-- ChordWiki content-div pattern
<div[^>]*class="[^"]*(?:wiki|content|chord)[^"]*"[^>]*>([\s\S]*?)<\/div> with gi. -/
def wikiDivRe : RE :=
  .seq (rstrCI "<div") (.seq (.star true (noneOf ">")) (.seq (rstrCI "class=\"")
    (.seq (.star true (noneOf "\"")) (.seq (.alt (rstrCI "wiki") (.alt (rstrCI "content") (rstrCI "chord")))
      (.seq (.star true (noneOf "\"")) (.seq (rchar '"') (.seq (.star true (noneOf ">"))
        (.seq (rchar '>') (.seq (.grp 1 anyStarLazy) (rstrCI "</div>"))))))))))

/-- ChordWiki heuristic line test [A-G][#b]?(m|maj|min|dim|aug|sus)?[0-9]?. -/
def cwLineChordRe : RE :=
  .seq (.cls isNoteAG) (.seq (ropt accidentalRe)
    (.seq (ropt (.alt (rstr "m") (.alt (rstr "maj") (.alt (rstr "min")
      (.alt (rstr "dim") (.alt (rstr "aug") (rstr "sus")))))))
      (ropt (.cls isDigitCh))))

/-- Capo pattern capo[:\s]*(\d+) with i. -/
def capoRe : RE :=
  .seq (rstrCI "capo") (.seq (.star true (.cls (fun c => c == ':' || jsWhitespace c)))
    (.grp 1 (rplus (.cls isDigitCh))))

/-- Key pattern ^[A-G][#b]?(m|maj|min)? with m. -/
def keyRe : RE :=
  .seq .bol (.seq (.cls isNoteAG) (.seq (ropt accidentalRe)
    (ropt (.alt (rstr "m") (.alt (rstr "maj") (rstr "min"))))))

/-- Script-block pattern <script\b[^>]*>([\s\S]*?)<\/script> with gi. -/
def scriptRe : RE :=
  .seq (rstrCI "<script") (.seq .wb (.seq tagOpenRest (.seq (.grp 1 anyStarLazy) (rstrCI "</script>"))))

/-- Character class [^"\\] of the double-quoted-string tokenizer. -/
def dqBodyChar (c : Char) : Bool := !(c == '"' || c == '\\')

/-- Double-quoted-string tokenizer "([^"\\]*(?:\\.[^"\\]*)*)" with g. -/
def dqStrRe : RE :=
  .seq (rchar '"') (.seq (.grp 1 (.seq (.star true (.cls dqBodyChar))
    (.star true (.seq (rchar '\\') (.seq (.cls dotChar) (.star true (.cls dqBodyChar)))))))
    (rchar '"'))

/-- J-Total parenthesised-title pattern ^(.+?)（(.+?)）$ (anchored, lazy). -/
def parenTitleRe : RE :=
  .seq (.grp 1 (rplusLazy (.cls dotChar))) (.seq (rchar '（')
    (.seq (.grp 2 (rplusLazy (.cls dotChar))) (rchar '）')))

/-- Anchored first match, for a pattern of the form ^...$ without the m
flag: only position 0 is tried and the match must reach the end. -/
def jsMatchAnchored (re : RE) (s : String) : Option MRes :=
  ((reMatches re none s.data).filter (fun m => m.rest.isEmpty)).head?

/-- ChordWiki artist-suffix strip ChordWiki.*$ with i (non-global). -/
def chordWikiSuffixRe : RE :=
  .seq (rstrCI "ChordWiki") (.seq (.star true (.cls dotChar)) .eol)

/-- U-Fret artist strip ギター.*$ with i (non-global). -/
def gStripRe1 : RE := .seq (rstrCI "ギター") (.seq (.star true (.cls dotChar)) .eol)

/-- U-Fret artist strip U-?FRET.*$ with i (non-global). -/
def gStripRe2 : RE :=
  .seq (ciChar 'U') (.seq (ropt (rchar '-'))
    (.seq (rstrCI "FRET") (.seq (.star true (.cls dotChar)) .eol)))

/-- U-Fret artist strip コード.*$ with i (non-global). -/
def gStripRe3 : RE := .seq (rstrCI "コード") (.seq (.star true (.cls dotChar)) .eol)

/-! Global replace-all with a plain substring pattern, used for the
entity decoding and escape-sequence replaces of the source (their
patterns contain no metacharacters, so the regex replace is an exact
substring replace-all). -/

def replaceAllFuel (pat rep : List Char) : Nat → List Char → List Char
  | _, [] => []
  | 0, s => s
  | fuel + 1, c :: rest =>
    if isPrefixL pat (c :: rest) && !pat.isEmpty then
      rep ++ replaceAllFuel pat rep fuel (rest.drop (pat.length - 1))
    else c :: replaceAllFuel pat rep fuel rest

/-- Each step consumes at least one input character, so fuel equal to
the input length is always enough. -/
def replaceAllL (pat rep s : List Char) : List Char :=
  replaceAllFuel pat rep s.length s

def replaceAllSub (s pat rep : String) : String :=
  strL (replaceAllL pat.data rep.data s.data)

/-! Embedding of api/lib/parser.js proper. -/

/-- TabType enumeration of parser.js (values are the strings Chord,
Fingerstyle, Tab, Unknown; all four are non-empty, hence always truthy
in the source). -/
inductive TabType where
  | chord
  | fingerstyle
  | tab
  | unknown
deriving DecidableEq

/-- detectTabType of parser.js: four or more tab-line matches give Tab,
upgraded to Fingerstyle at ten or more when a technique-marker character
occurs anywhere in the content; otherwise three or more chord matches
give Chord; otherwise Unknown. -/
def detectTabType (content : String) : TabType :=
  if content = "" then .unknown
  else
    let tabLines := jsMatchAll tabLineRe content
    if 4 ≤ tabLines.length then
      let hasComplexPatterns := containsSub content "h" || containsSub content "p" ||
        containsSub content "/" || containsSub content "\\"
      if hasComplexPatterns && 10 ≤ tabLines.length then .fingerstyle else .tab
    else
      let chords := jsMatchAll chordRe content
      if 3 ≤ chords.length then .chord else .unknown

def digitsToNat (l : List Char) : Nat :=
  l.foldl (fun n c => n * 10 + (c.toNat - 0x30)) 0

/-- extractCapo of parser.js: first match of capo[:\s]*(\d+) (case
insensitive), group parsed as a decimal integer. -/
def extractCapo (text : String) : Option Nat :=
  (jsMatchFirst capoRe text).map fun m => digitsToNat ((capGet m 1).getD "").data

/-- extractKey of parser.js: first line-start chord-root match. -/
def extractKey (content : String) : Option String :=
  (jsMatchFirst keyRe content).map matchedStr

/-- stripHtml of parser.js. -/
def stripHtml (html : String) : String :=
  let s := jsReplaceAll anyTagRe "" (jsReplaceAll pCloseRe "\n\n" (jsReplaceAll brRe "\n" html))
  let s := replaceAllSub s "&nbsp;" " "
  let s := replaceAllSub s "&amp;" "&"
  let s := replaceAllSub s "&lt;" "<"
  let s := replaceAllSub s "&gt;" ">"
  let s := replaceAllSub s "&quot;" "\""
  let s := replaceAllSub s "&#39;" "\x27"
  jsTrim s

/-- htmlToTextBlock of parser.js (J-Total helper). -/
def htmlToTextBlock (frag : String) : String :=
  let s := jsReplaceAll anyTagRe "" (jsReplaceAll pCloseRe "\n" (jsReplaceAll brRe "\n" frag))
  let s := replaceAllSub s "&nbsp;" " "
  let s := replaceAllSub s "&amp;" "&"
  let s := replaceAllSub s "&lt;" "<"
  let s := replaceAllSub s "&gt;" ">"
  let s := replaceAllSub s "&quot;" "\""
  let s := replaceAllSub s "&#39;" "\x27"
  let s := replaceAllSub s "\r\n" "\n"
  let s := replaceAllSub s "\r" "\n"
  jsTrim (jsReplaceAll nl3Re "\n\n" (jsReplaceAll spaceTabNlRe "\n" s))

def hexVal (c : Char) : Option Nat :=
  if isDigitCh c then some (c.toNat - 0x30)
  else if 0x41 ≤ c.toNat && c.toNat ≤ 0x46 then some (c.toNat - 0x37)
  else if 0x61 ≤ c.toNat && c.toNat ≤ 0x66 then some (c.toNat - 0x57)
  else none

/-- String.fromCharCode: `Char.ofNat` yields the null character for the
surrogate code points, where JavaScript would produce a lone surrogate;
no verified property depends on that corner. -/
def fromCharCode (n : Nat) : Char := Char.ofNat n

/-- The \uXXXX pass of unescapeJsString, as a left-to-right
non-overlapping scan (exactly what the global regex replace does). -/
def replaceUniEscL : List Char → List Char
  | '\\' :: 'u' :: a :: b :: c :: d :: rest =>
    match hexVal a, hexVal b, hexVal c, hexVal d with
    | some x, some y, some z, some w =>
      fromCharCode (((x * 16 + y) * 16 + z) * 16 + w) :: replaceUniEscL rest
    | _, _, _, _ => '\\' :: replaceUniEscL ('u' :: a :: b :: c :: d :: rest)
  | c :: rest => c :: replaceUniEscL rest
  | [] => []

/-- unescapeJsString of parser.js: the \uXXXX pass first, then the
two-character escape replaces in source order. -/
def unescapeJsString (s : String) : String :=
  let s := strL (replaceUniEscL s.data)
  let s := replaceAllSub s "\\n" "\n"
  let s := replaceAllSub s "\\r" "\r"
  let s := replaceAllSub s "\\t" "\t"
  let s := replaceAllSub s "\\\"" "\""
  let s := replaceAllSub s "\\\x27" "\x27"
  replaceAllSub s "\\\\" "\\"

/-- looksLikeChordLine of parser.js. -/
def looksLikeChordLine (s : String) : Bool := jsTest chordProMarkRe s

/-- Script bodies collected by the html.replace callback of
extractChordProFromScripts: group 1 of each global scriptRe match, kept
when truthy and longer than 50 characters. -/
def scriptBodies (html : String) : List String :=
  ((scanAll scriptRe html).filterMap (fun m => capGet m 1)).filter
    (fun body => body != "" && decide (50 < body.length))

/-- First-occurrence deduplication, as the Set spread of the source. -/
def dedupAux (seen : List String) : List String → List String
  | [] => []
  | x :: rest =>
    if seen.contains x then dedupAux seen rest
    else x :: dedupAux (x :: seen) rest

def dedupFirst (l : List String) : List String := dedupAux [] l

/-- Stable sort by length descending, as the stable JavaScript
Array.prototype.sort with comparator (a, b) => b.length - a.length. -/
def insertDescLen (x : String) : List String → List String
  | [] => [x]
  | y :: rest =>
    if y.length ≤ x.length then x :: y :: rest
    else y :: insertDescLen x rest

def sortDescLen (l : List String) : List String := l.foldr insertDescLen []

/-- The aggregation of extractChordProFromScripts before its final
trim. -/
def chordProRaw (html : String) : String :=
  let scripts := scriptBodies html
  let chunks := scripts.flatMap (fun sc =>
    ((jsMatchAll dqStrRe sc).map
        (fun raw => unescapeJsString (strL ((raw.data.drop 1).dropLast)))).filter
      (fun s => !decide (s.length < 20) && looksLikeChordLine s))
  let uniqueChunks := dedupFirst chunks
  jsReplaceAll nl3Re "\n\n"
    (String.intercalate "\n" ((sortDescLen uniqueChunks).take 200).reverse)

/-- extractChordProFromScripts of parser.js. -/
def extractChordProFromScripts (html : String) : String :=
  jsTrim (chordProRaw html)

/-! Embedding of api/lib/siteConfig.js. -/

/-- ParseMode of api/lib/siteConfig.js: the two-valued enumeration of the
registry actually imported by parser.js (server, redirect). -/
inductive ParseMode where
  | server
  | redirect
deriving DecidableEq

inductive TabFormat where
  | html
  | pdf
  | gp
  | video
  | mixed
deriving DecidableEq

/-- One registry row (the notes field of the source is a pure
documentation string, never read, and is omitted). -/
structure SiteEntry where
  parseMode : ParseMode
  format : TabFormat
  priority : Nat
  stype : String
  lang : String
deriving DecidableEq

/-- The object returned by getSiteConfig: the matched pattern as domain
plus the spread registry row. -/
structure SiteProfile where
  domain : String
  parseMode : ParseMode
  format : TabFormat
  priority : Nat
  stype : String
  lang : String
deriving DecidableEq

/-- SITE_CONFIG of api/lib/siteConfig.js, in declaration order (string
keys of a JavaScript object literal enumerate in insertion order). -/
def SITE_CONFIG : List (String × SiteEntry) := [
  ("fingerstyle-guitar.jp", ⟨.redirect, .html, 80, "Fingerstyle", "ja"⟩),
  ("guitarone.jp", ⟨.redirect, .mixed, 75, "Fingerstyle", "ja"⟩),
  ("acousticguitarmagazine.jp", ⟨.redirect, .pdf, 70, "Fingerstyle", "ja"⟩),
  ("tabguitar.blog.fc2.com", ⟨.redirect, .mixed, 60, "Fingerstyle", "ja"⟩),
  ("blog.fc2.com", ⟨.redirect, .mixed, 50, "Fingerstyle", "ja"⟩),
  ("guitar-beginner.net", ⟨.redirect, .html, 55, "Fingerstyle", "ja"⟩),
  ("yukimatsui.jp", ⟨.redirect, .pdf, 40, "Fingerstyle", "ja"⟩),
  ("kotaro-oshio.com", ⟨.redirect, .pdf, 40, "Fingerstyle", "ja"⟩)]

def isSchemeChar (c : Char) : Bool :=
  (0x41 ≤ c.toNat && c.toNat ≤ 0x5a) || (0x61 ≤ c.toNat && c.toNat ≤ 0x7a) ||
  isDigitCh c || c == '+' || c == '-' || c == '.'

def isAlphaCh (c : Char) : Bool :=
  (0x41 ≤ c.toNat && c.toNat ≤ 0x5a) || (0x61 ≤ c.toNat && c.toNat ≤ 0x7a)

/-- Code points the WHATWG URL host grammar forbids. -/
def forbiddenHostChar (c : Char) : Bool :=
  c.toNat ≤ 0x20 || c == '#' || c == '%' || c == '/' || c == ':' || c == '<' ||
  c == '>' || c == '?' || c == '@' || c == '[' || c == '\\' || c == ']' ||
  c == '^' || c == '|' || c.toNat == 0x7f

def lowerAscii (c : Char) : Char :=
  if 0x41 ≤ c.toNat && c.toNat ≤ 0x5a then Char.ofNat (c.toNat + 32) else c

/-- Modelled from the spec: the platform builtin new URL(url).hostname,
which is not part of the repository; the spec's collaborator contract
(section 6) promises sourceUrl is an absolute URL string.  Simplified
WHATWG parsing: an ASCII alphabetic scheme followed by ://, then the
authority up to the first /, ? or #; userinfo up to the last @ is
dropped, a :port suffix is dropped, ASCII letters are lowercased.  The
constructor throw on an invalid URL is modelled as none: no scheme,
empty host, or a forbidden host code point. -/
def urlHostname (url : String) : Option String :=
  match url.data with
  | [] => none
  | c :: rest =>
    if !isAlphaCh c then none
    else
      match rest.dropWhile isSchemeChar with
      | ':' :: '/' :: '/' :: tail =>
        let authority := tail.takeWhile (fun ch => !(ch == '/' || ch == '?' || ch == '#'))
        let hostPort := (authority.reverse.takeWhile (fun ch => ch != '@')).reverse
        let host :=
          if hostPort.contains ':' then
            ((hostPort.reverse.dropWhile (fun ch => ch != ':')).reverse).dropLast
          else hostPort
        if host.isEmpty || host.any forbiddenHostChar then none
        else some (strL (host.map lowerAscii))
      | _ => none

def profileOf (kv : String × SiteEntry) : SiteProfile :=
  ⟨kv.1, kv.2.parseMode, kv.2.format, kv.2.priority, kv.2.stype, kv.2.lang⟩

/-- getSiteConfig of api/lib/siteConfig.js: hostname with the first
occurrence of www. removed, exact key lookup first, then the first
declaration-order entry whose pattern the hostname ends with or
contains; the try/catch around the URL constructor returns null on an
invalid URL. -/
def getSiteConfig (url : String) : Option SiteProfile :=
  match urlHostname url with
  | none => none
  | some h =>
    let hostname := replaceOnceSub h "www." ""
    match SITE_CONFIG.find? (fun kv => kv.1 == hostname) with
    | some kv => some (profileOf kv)
    | none =>
      (SITE_CONFIG.find? (fun kv =>
        endsWithSub hostname kv.1 || containsSub hostname kv.1)).map profileOf

/-- isParseable of parser.js: config?.parseMode === ParseMode.SERVER. -/
def isParseable (url : String) : Bool :=
  match getSiteConfig url with
  | some config => config.parseMode == ParseMode.server
  | none => false

/-- JavaScript falsy-string coalescing `s || d`. -/
def jsOr (s d : String) : String := if s = "" then d else s

/-- The result record of the extraction engine.  Fields the JavaScript
parsers leave undefined (message, source, redirectOnly on most paths)
are modelled as none / false, matching their falsiness in the source. -/
structure ExtractionResult where
  title : String
  artist : String
  type : TabType
  content : String
  capo : Option Nat
  key : Option String
  parseable : Bool
  redirectOnly : Bool
  message : Option String
  source : Option String
deriving DecidableEq

def sepDash (c : Char) : Bool := c == '-' || c == '–'

def sepDashPipe (c : Char) : Bool := c == '-' || c == '–' || c == '|'

def sepSlashPipe (c : Char) : Bool := c == '/' || c == '|'

def joinBlocks (l : List String) : String := String.intercalate "\n\n" l

/-- The content computation of parseGeneric: all pre blocks (tags
stripped, entity-decoded) joined with blank lines, else the same over
code blocks (the source's empty ChordPro-detection if-statement has no
effect and is omitted). -/
def parseGenericContent (html : String) : String :=
  let preMatch := jsMatchAll preRe html
  let content :=
    if 0 < preMatch.length then
      joinBlocks ((preMatch.map (fun p => jsReplaceAll preTagRe "" p)).map stripHtml)
    else ""
  if content = "" then
    let codeMatch := jsMatchAll codeRe html
    if 0 < codeMatch.length then
      joinBlocks ((codeMatch.map (fun c => jsReplaceAll codeTagRe "" c)).map stripHtml)
    else content
  else content

/-- The title/artist computation of parseGeneric: first and second
pieces of the dash/pipe split of the title tag, trimmed. -/
def parseGenericTitleArtist (html : String) : String × String :=
  match jsMatchFirst titleRe html with
  | some m =>
    let titleParts := splitCls sepDashPipe ((capGet m 1).getD "")
    (jsTrim (titleParts.getD 0 ""), jsTrim (titleParts.getD 1 ""))
  | none => ("", "")

/-- parseGeneric of parser.js. -/
def parseGeneric (html : String) : ExtractionResult :=
  ⟨jsOr (parseGenericTitleArtist html).1 "Unknown", (parseGenericTitleArtist html).2,
    detectTabType (parseGenericContent html), jsTrim (parseGenericContent html),
    extractCapo (parseGenericContent html ++ " " ++ html),
    extractKey (parseGenericContent html),
    decide (50 < (parseGenericContent html).length), false, none, none⟩

/-- The content computation of parseUltimateGuitar: the tK8GG pre
block, HTML-stripped. -/
def parseUGContent (html : String) : String :=
  match jsMatchFirst ugPreRe html with
  | some m => stripHtml ((capGet m 1).getD "")
  | none => ""

def parseUGTitle (html : String) : String :=
  match jsMatchFirst h1Re html with
  | some m => stripHtml ((capGet m 1).getD "")
  | none => ""

def parseUGArtist (html : String) : String :=
  match jsMatchFirst byRe html with
  | some m => stripHtml ((capGet m 1).getD "")
  | none => ""

/-- The record parseUltimateGuitar returns when the tK8GG pre block
produced content. -/
def parseUGRecord (html : String) : ExtractionResult :=
  ⟨jsOr (parseUGTitle html) "Unknown", parseUGArtist html,
    detectTabType (parseUGContent html), jsTrim (parseUGContent html),
    extractCapo html, extractKey (parseUGContent html),
    decide (50 < (parseUGContent html).length), false, none, none⟩

/-- parseUltimateGuitar of parser.js (the window.__INITIAL_STATE__ match
feeds an empty try block and has no observable effect; omitted). -/
def parseUltimateGuitar (html : String) : ExtractionResult :=
  if parseUGContent html = "" then parseGeneric html
  else parseUGRecord html

/-- parseSongsterr of parser.js: fixed Tab type, empty content, not
parseable. -/
def parseSongsterr (html : String) : ExtractionResult :=
  let ta :=
    match jsMatchFirst titleRe html with
    | some m =>
      let parts := splitCls sepDash ((capGet m 1).getD "")
      (jsTrim (parts.getD 1 ""), replaceOnceSub (jsTrim (parts.getD 0 "")) " Tab" "")
    | none => ("", "")
  ⟨ta.1, ta.2, .tab, "", none, none, false, false, none, none⟩

/-- parseChordify of parser.js: fixed Chord type, empty content, not
parseable. -/
def parseChordify (html : String) : ExtractionResult :=
  let ta :=
    match jsMatchFirst titleRe html with
    | some m =>
      let parts := splitCls sepDashPipe ((capGet m 1).getD "")
      (jsTrim (parts.getD 0 ""),
        match parts.get? 1 with
        | some p => jsTrim (replaceOnceSub p "Chords" "")
        | none => "")
    | none => ("", "")
  ⟨ta.1, ta.2, .chord, "", none, none, false, false, none, none⟩

/-- The candidate-selection of parseJTotal: tt blocks then pre blocks
(each re-matched for its body, pushed only when the body is truthy),
trimmed, kept at 200 characters or more, longest first. -/
def parseJTotalContent (html : String) : String :=
  let ttCands := (jsMatchAll ttRe html).filterMap (fun block =>
    match (jsMatchFirst ttRe block).bind (fun m => capGet m 1) with
    | some g => if g = "" then none else some (htmlToTextBlock g)
    | none => none)
  let preCands := (jsMatchAll preWbRe html).filterMap (fun block =>
    match (jsMatchFirst preWbRe block).bind (fun m => capGet m 1) with
    | some g => if g = "" then none else some (htmlToTextBlock g)
    | none => none)
  let candidates := ttCands ++ preCands
  (sortDescLen ((candidates.map jsTrim).filter (fun t => 200 ≤ t.length))).headD ""

/-- The title/artist computation of parseJTotal.  The title/artist
obtained from the first dash split are immediately recomputed from the
slash split (the source unconditionally overwrites title; artist
survives unless the parenthesised form matches). -/
def parseJTotalTitleArtist (html : String) : String × String :=
  let titleMatch := jsMatchFirst titleRe html
  let artist0 :=
    match titleMatch with
    | some m => jsTrim ((splitCls sepDash ((capGet m 1).getD "")).getD 1 "")
    | none => ""
  let titleParts := splitCls sepSlashPipe ((titleMatch.bind (fun m => capGet m 1)).getD "")
  let mainPart := jsTrim (titleParts.getD 0 "")
  match jsMatchAnchored parenTitleRe mainPart with
  | some pm => (jsTrim ((capGet pm 1).getD ""), jsTrim ((capGet pm 2).getD ""))
  | none => (mainPart, artist0)

/-- parseJTotal of parser.js. -/
def parseJTotal (html : String) : ExtractionResult :=
  ⟨jsOr (parseJTotalTitleArtist html).1 "Unknown", (parseJTotalTitleArtist html).2,
    detectTabType (parseJTotalContent html), jsTrim (parseJTotalContent html),
    extractCapo html, extractKey (parseJTotalContent html),
    decide (50 < (parseJTotalContent html).length), false, none, some "j-total.net"⟩

/-- The three-stage content fallback of parseChordWiki: pre blocks, then
content divs with more than five lines, then the heuristic chord-line
scan requiring more than ten matching lines. -/
def parseChordWikiContent (html : String) : String :=
  let preMatch := jsMatchAll preRe html
  let content1 :=
    if 0 < preMatch.length then
      joinBlocks (preMatch.map (fun p => stripHtml (jsReplaceAll preTagRe "" p)))
    else ""
  let content2 :=
    if content1 = "" then
      let wikiMatch := jsMatchAll wikiDivRe html
      if 0 < wikiMatch.length then
        joinBlocks ((wikiMatch.map stripHtml).filter (fun text => 5 < (splitNl text).length))
      else content1
    else content1
  if content2 = "" then
    let lines := splitNl (jsReplaceAll brRe "\n" html)
    let chordLines := lines.filter (fun line => jsTest cwLineChordRe (stripHtml line))
    if 10 < chordLines.length then String.intercalate "\n" (chordLines.map stripHtml)
    else content2
  else content2

/-- The title/artist computation of parseChordWiki: dash split of the
title tag with the ChordWiki suffix stripped from the artist, the title
overridden by an h1 heading when present. -/
def parseChordWikiTitleArtist (html : String) : String × String :=
  let ta :=
    match jsMatchFirst titleRe html with
    | some m =>
      let parts := splitCls sepDash ((capGet m 1).getD "")
      (jsTrim (parts.getD 0 ""),
        jsTrim (jsReplaceFirst chordWikiSuffixRe "" (jsTrim (parts.getD 1 ""))))
    | none => ("", "")
  match jsMatchFirst h1Re html with
  | some m => (stripHtml ((capGet m 1).getD ""), ta.2)
  | none => ta

/-- parseChordWiki of parser.js.  The source computes
detectTabType(content) || TabType.CHORD; detectTabType always returns
one of four non-empty strings, so the || never falls through and the
embedding is detectTabType content. -/
def parseChordWiki (html : String) : ExtractionResult :=
  ⟨jsOr (parseChordWikiTitleArtist html).1 "Unknown", (parseChordWikiTitleArtist html).2,
    detectTabType (parseChordWikiContent html), jsTrim (parseChordWikiContent html),
    extractCapo html, extractKey (parseChordWikiContent html),
    decide (50 < (parseChordWikiContent html).length), false, none,
    some "chordwiki.jpn.org"⟩

/-- The title/artist computation of parseUFret: slash/pipe split of the
title tag, artist stripped of the guitar/U-FRET/chord suffixes, the
title overridden by an h1 heading when present. -/
def parseUFretTitleArtist (html : String) : String × String :=
  let ta :=
    match jsMatchFirst titleRe html with
    | some m =>
      let parts := splitCls sepSlashPipe ((capGet m 1).getD "")
      (jsTrim (parts.getD 0 ""),
        match parts.get? 1 with
        | some p =>
          jsTrim (jsReplaceFirst gStripRe3 ""
            (jsReplaceFirst gStripRe2 "" (jsReplaceFirst gStripRe1 "" (jsTrim p))))
        | none => "")
    | none => ("", "")
  match jsMatchFirst h1Re html with
  | some m => (stripHtml ((capGet m 1).getD ""), ta.2)
  | none => ta

/-- The record parseUFret returns when the script scan succeeded. -/
def parseUFretRecord (html : String) : ExtractionResult :=
  ⟨jsOr (parseUFretTitleArtist html).1 "Unknown", (parseUFretTitleArtist html).2,
    .chord, jsTrim (extractChordProFromScripts html),
    extractCapo html, extractKey (extractChordProFromScripts html),
    decide (50 < (extractChordProFromScripts html).length), false, none,
    some "ufret.jp"⟩

/-- parseUFret of parser.js: ChordPro extraction from scripts, falling
back to parseGeneric when the script scan yields fewer than 100
characters. -/
def parseUFret (html : String) : ExtractionResult :=
  if extractChordProFromScripts html = "" ∨ (extractChordProFromScripts html).length < 100 then
    parseGeneric html
  else parseUFretRecord html

/-- parseGuitarTabsCc of parser.js delegates to parseGeneric. -/
def parseGuitarTabsCc (html : String) : ExtractionResult := parseGeneric html

/-- extractTitleFromHtml of parser.js (redirect-mode title). -/
def extractTitleFromHtml (html : String) : String :=
  match jsMatchFirst titleRe html with
  | some m =>
    jsOr (jsTrim ((splitCls sepDashPipe ((capGet m 1).getD "")).getD 0 "")) "Unknown"
  | none => "Unknown"

/-- The per-site dispatch table of parseTabFromHtml, in insertion
order. -/
inductive ParserId where
  | jtotal
  | chordwiki
  | ufret
  | generic
  | ultimateGuitar
  | songsterr
  | chordify
  | guitarTabsCc
deriving DecidableEq

def parsersTable : List (String × ParserId) := [
  ("j-total.net", .jtotal),
  ("chordwiki.jpn.org", .chordwiki),
  ("ufret.jp", .ufret),
  ("gakufu.gakki.me", .generic),
  ("ultimate-guitar.com", .ultimateGuitar),
  ("songsterr.com", .songsterr),
  ("chordify.net", .chordify),
  ("guitartabs.cc", .guitarTabsCc)]

/-- Dispatch of parseTabFromHtml: exact key first, then the first table
entry whose key the domain contains, else the generic parser. -/
def routeParser (domain : String) : ParserId :=
  match parsersTable.find? (fun kv => kv.1 == domain) with
  | some kv => kv.2
  | none =>
    match parsersTable.find? (fun kv => containsSub domain kv.1) with
    | some kv => kv.2
    | none => .generic

def runParser : ParserId → String → ExtractionResult
  | .jtotal => parseJTotal
  | .chordwiki => parseChordWiki
  | .ufret => parseUFret
  | .generic => parseGeneric
  | .ultimateGuitar => parseUltimateGuitar
  | .songsterr => parseSongsterr
  | .chordify => parseChordify
  | .guitarTabsCc => parseGuitarTabsCc

/-- parseTabFromHtml of parser.js.  The unguarded new URL(url) on its
first line throws on an invalid URL; that is the none case.  A
registered redirect-mode site short-circuits; otherwise the dispatched
per-site parser (or parseGeneric) runs on the html. -/
def parseTabFromHtml (html url : String) : Option ExtractionResult :=
  match urlHostname url with
  | none => none
  | some host =>
    let domain := replaceOnceSub host "www." ""
    if (getSiteConfig url).any (fun c => c.parseMode == ParseMode.redirect) then
      some ⟨extractTitleFromHtml html, "", .unknown, "", none, none, false, true,
        some "此站点需要在原网页查看", none⟩
    else
      some (runParser (routeParser domain) html)

/-! Embedding of validateContent from api/search.js. -/

/-- The record returned by validateContent.  The ratio is an exact
rational; the source computes in binary64, which agrees on every count
a realistic content string can produce. -/
structure ValidationResult where
  valid : Bool
  lines : Nat
  chordRatio : ℚ
deriving DecidableEq

/-- Math.round(q * 100) / 100 (JavaScript Math.round is floor of x + 1/2,
which is Mathlib round on nonnegative arguments). -/
def round2 (q : ℚ) : ℚ := (round (q * 100) : ℚ) / 100

/-- validateContent of api/search.js: non-blank line count, chord matches
per whitespace-split token, validity thresholds 20 lines and ratio
above 0.05 (checked on the unrounded ratio; the returned ratio is
rounded to two decimals). -/
def validateContent (content : String) : ValidationResult :=
  if content = "" then ⟨false, 0, 0⟩
  else
    let lines := ((splitNl content).filter (fun line => jsTrim line != "")).length
    let chords := jsMatchAll chordRe content
    let tokens := (splitWs content).length
    let chordRatio : ℚ := if 0 < tokens then (chords.length : ℚ) / (tokens : ℚ) else 0
    ⟨decide (20 ≤ lines) && decide ((1 : ℚ) / 20 < chordRatio), lines, round2 chordRatio⟩

/-! Named counting helpers over the embedded definitions (used to state
the classifier and validator claims). -/

def nonBlankLineCount (content : String) : Nat :=
  ((splitNl content).filter (fun line => jsTrim line != "")).length

def chordMatchCount (content : String) : Nat :=
  (jsMatchAll chordRe content).length

def distinctChordMatchCount (content : String) : Nat :=
  (dedupFirst (jsMatchAll chordRe content)).length

def tabMatchCount (content : String) : Nat :=
  (jsMatchAll tabLineRe content).length

def jsTokenCount (content : String) : Nat := (splitWs content).length

def hasTechniqueMarker (content : String) : Bool :=
  containsSub content "h" || containsSub content "p" ||
  containsSub content "/" || containsSub content "\\"

/-! Definitions that follow the words of the spec sentences under test,
for comparison against the definitions embedded from the source. -/

/-- Following claim C4's words: the token count is the number of
whitespace-delimited tokens (no empty boundary tokens). -/
def wsTokenCountSpec (content : String) : Nat :=
  ((splitWs content).filter (fun t => t != "")).length

/-- Following claim C4's words: lines, unrounded chord ratio (zero on
empty content), validity at the stated thresholds. -/
def validateContentSpec (content : String) : ValidationResult :=
  let lines := nonBlankLineCount content
  let ratio : ℚ :=
    if content = "" then 0
    else (chordMatchCount content : ℚ) / (wsTokenCountSpec content : ℚ)
  ⟨decide (20 ≤ lines) && decide ((1 : ℚ) / 20 < ratio), lines, ratio⟩

/-- The ratio the source actually computes before rounding: chord
matches over the JavaScript whitespace-split token count. -/
def rawChordRatio (content : String) : ℚ :=
  if content = "" then 0
  else if 0 < jsTokenCount content then
    (chordMatchCount content : ℚ) / (jsTokenCount content : ℚ)
  else 0

/-- Claim C4 as amended: the returned chordRatio is the two-decimal
rounding of the raw ratio, the token count is the JavaScript split
count (with boundary empties), and validity uses the unrounded
ratio. -/
def validateContentAmended (content : String) : ValidationResult :=
  if content = "" then ⟨false, 0, 0⟩
  else
    ⟨decide (20 ≤ nonBlankLineCount content) &&
        decide ((1 : ℚ) / 20 < rawChordRatio content),
      nonBlankLineCount content, round2 (rawChordRatio content)⟩

/-- Following claim C6's words: strip a leading www. only. -/
def stripLeadingWww (h : String) : String :=
  if isPrefixL "www.".data h.data then strL (h.data.drop 4) else h

/-- The registry lookup shared by the code and the claim: exact match
first, then the first declaration-order pattern the hostname ends with
or contains. -/
def lookupSiteSpec (hostname : String) : Option SiteProfile :=
  match SITE_CONFIG.find? (fun kv => kv.1 == hostname) with
  | some kv => some (profileOf kv)
  | none =>
    (SITE_CONFIG.find? (fun kv =>
      endsWithSub hostname kv.1 || containsSub hostname kv.1)).map profileOf

/-- The site lookup exactly as claim C6 words it (leading-www strip). -/
def getSiteConfigSpec (url : String) : Option SiteProfile :=
  (urlHostname url).bind (fun h => lookupSiteSpec (stripLeadingWww h))

/-- Claim C6 as amended: the first occurrence of www. anywhere in the
hostname is removed (JavaScript replace with a string pattern), not
only a leading one. -/
def getSiteConfigAmended (url : String) : Option SiteProfile :=
  (urlHostname url).bind (fun h => lookupSiteSpec (replaceOnceSub h "www." ""))

/-- The script-string pipeline exactly as claim C7 words it: all script
bodies (no length filter on the body), double-quoted literals,
unescaped, kept at ≥ 20 characters when chord-marked, deduplicated,
ranked by length, top 200, reversed, joined, blank runs collapsed (no
final trim). -/
def chordProPipelineSpec (html : String) : String :=
  let bodies := (scanAll scriptRe html).filterMap (fun m => capGet m 1)
  let kept := bodies.flatMap (fun sc =>
    ((jsMatchAll dqStrRe sc).map
        (fun raw => unescapeJsString (strL ((raw.data.drop 1).dropLast)))).filter
      (fun s => decide (20 ≤ s.length) && looksLikeChordLine s))
  jsReplaceAll nl3Re "\n\n"
    (String.intercalate "\n" (((sortDescLen (dedupFirst kept)).take 200).reverse))

/-- Claim C7 as amended: additionally, only script bodies longer than
50 characters enter the pipeline, and the final text is trimmed. -/
def chordProPipelineAmended (html : String) : String :=
  let bodies := ((scanAll scriptRe html).filterMap (fun m => capGet m 1)).filter
    (fun body => body != "" && decide (50 < body.length))
  let kept := bodies.flatMap (fun sc =>
    ((jsMatchAll dqStrRe sc).map
        (fun raw => unescapeJsString (strL ((raw.data.drop 1).dropLast)))).filter
      (fun s => decide (20 ≤ s.length) && looksLikeChordLine s))
  jsTrim (jsReplaceAll nl3Re "\n\n"
    (String.intercalate "\n" (((sortDescLen (dedupFirst kept)).take 200).reverse)))

/-! Predicates used by the whitespace lemmas below. -/

/-- Every character of the list is regex whitespace. -/
def allWsL (l : List Char) : Prop := ∀ c ∈ l, jsWhitespace c = true

/-- The previous character, when present, is regex whitespace. -/
def prevWs (prev : Option Char) : Prop :=
  ∀ c, prev = some c → jsWhitespace c = true

/-! General lemmas about the embedded string and regex operations. -/

theorem ws_not_word {c : Char} (h : jsWhitespace c = true) : isWordChar c = false := by
  by_cases hw : isWordChar c = true
  · exfalso
    simp only [jsWhitespace, isWordChar, Bool.or_eq_true, Bool.and_eq_true,
      beq_iff_eq, decide_eq_true_eq] at h hw
    rcases h with ((((((((((((((h|h)|h)|h)|h)|h)|h)|h)|⟨h1,h2⟩)|h)|h)|h)|h)|h)|h) <;>
      rcases hw with (((⟨a,b⟩|⟨a,b⟩)|⟨a,b⟩)|a) <;> omega
  · exact Bool.eq_false_iff.mpr hw

theorem ws_not_eadgbe {c : Char} (h : jsWhitespace c = true) :
    ("eEBGDA".data.contains c) = false := by
  by_cases hm : ("eEBGDA".data.contains c) = true
  · have hc : c ∈ "eEBGDA".data := by simpa using hm
    fin_cases hc <;> exact absurd h (by decide)
  · exact Bool.eq_false_iff.mpr hm

theorem wb_false_of_ws {prev : Option Char} {t : List Char}
    (hp : prevWs prev) (ht : allWsL t) : wbHolds prev t = false := by
  unfold wbHolds
  cases prev with
  | none =>
    cases t with
    | nil => rfl
    | cons d ds => simp [ws_not_word (ht d (by simp))]
  | some c =>
    have hc := ws_not_word (hp c rfl)
    cases t with
    | nil => simp [hc]
    | cons d ds => simp [hc, ws_not_word (ht d (by simp))]

theorem reMatches_tab_nil (prev : Option Char) (t : List Char) (ht : allWsL t) :
    reMatches tabLineRe prev t = [] := by
  cases t with
  | nil => rfl
  | cons c cs =>
    have hc : ("eEBGDA".data.contains c) = false := ws_not_eadgbe (ht c (by simp))
    simp only [tabLineRe, oneOf, reMatches, hc, Bool.false_eq_true, if_false,
      List.flatMap_nil]

theorem reMatches_chord_nil (prev : Option Char) (t : List Char)
    (hp : prevWs prev) (ht : allWsL t) : reMatches chordRe prev t = [] := by
  have hw : wbHolds prev t = false := wb_false_of_ws hp ht
  simp only [chordRe, reMatches, hw, Bool.false_eq_true, if_false, List.flatMap_nil]

theorem scanFrom_nil (re : RE)
    (H : ∀ prev t, prevWs prev → allWsL t → reMatches re prev t = []) :
    ∀ (fuel : Nat) (prev : Option Char) (s : List Char),
      prevWs prev → allWsL s → scanFrom re fuel prev s = [] := by
  intro fuel
  induction fuel with
  | zero => intro prev s _ _; rfl
  | succ n ih =>
    intro prev s hp hs
    rw [scanFrom]
    unfold scanStep
    rw [H prev s hp hs]
    cases s with
    | nil => rfl
    | cons c cs =>
      exact ih (some c) cs (fun d hd => by cases hd; exact hs c (by simp))
        (fun d hd => hs d (by simp [hd]))

theorem allws_of_trim_nil {l : List Char} (h : jsTrimL l = []) : allWsL l := by
  unfold jsTrimL at h
  rw [List.reverse_eq_nil_iff, List.dropWhile_eq_nil_iff] at h
  intro c hc
  by_cases hmem : c ∈ l.dropWhile jsWhitespace
  · exact h c (List.mem_reverse.mpr hmem)
  · have hct : c ∈ l.takeWhile jsWhitespace := by
      have hsplit := List.takeWhile_append_dropWhile (p := jsWhitespace) (l := l)
      rw [← hsplit] at hc
      rcases List.mem_append.mp hc with h1 | h2
      · exact h1
      · exact absurd h2 hmem
    exact List.mem_takeWhile_imp hct

theorem jsMatchAll_nil_of_ws (re : RE)
    (H : ∀ prev t, prevWs prev → allWsL t → reMatches re prev t = [])
    (s : String) (hs : allWsL s.data) : jsMatchAll re s = [] := by
  unfold jsMatchAll scanAll
  rw [scanFrom_nil re H _ none s.data (fun c hc => by cases hc) hs]
  rfl

/-- A content string whose trim is empty classifies as Unknown: neither
the tab-line pattern (which must start with a string letter) nor the
chord pattern (which must start at a word boundary) can match inside
pure whitespace. -/
theorem detect_unknown_of_trim_empty (s : String) (h : jsTrim s = "") :
    detectTabType s = TabType.unknown := by
  have hl : jsTrimL s.data = [] := by
    have h2 : strL (jsTrimL s.data) = "" := h
    simpa [strL] using congrArg String.data h2
  have hws : allWsL s.data := allws_of_trim_nil hl
  by_cases hs : s = ""
  · simp [detectTabType, hs]
  · rw [detectTabType, if_neg hs]
    rw [jsMatchAll_nil_of_ws tabLineRe (fun prev t _ ht => reMatches_tab_nil prev t ht) s hws]
    rw [jsMatchAll_nil_of_ws chordRe (fun prev t hp ht => reMatches_chord_nil prev t hp ht) s hws]
    rfl

theorem dropWhile_head_not (p : Char → Bool) :
    ∀ (l : List Char) c t, l.dropWhile p = c :: t → p c = false := by
  intro l
  induction l with
  | nil => intro c t h; simp at h
  | cons a as ih =>
    intro c t h
    by_cases hp : p a
    · rw [List.dropWhile_cons_of_pos hp] at h
      exact ih c t h
    · rw [List.dropWhile_cons_of_neg hp] at h
      cases h
      exact Bool.eq_false_iff.mpr hp

theorem dropWhile_eq_self_of_head (p : Char → Bool) (l : List Char)
    (h : ∀ c t, l = c :: t → p c = false) : l.dropWhile p = l := by
  cases l with
  | nil => rfl
  | cons a as =>
    rw [List.dropWhile_cons_of_neg]
    simp [h a as rfl]

theorem jsTrimL_idem (l : List Char) : jsTrimL (jsTrimL l) = jsTrimL l := by
  unfold jsTrimL
  set p := jsWhitespace with hp
  set A := l.dropWhile p with hA
  set B := (A.reverse).dropWhile p with hB
  have hBrev : B.reverse.dropWhile p = B.reverse := by
    apply dropWhile_eq_self_of_head
    intro c t hc
    have hBne : B ≠ [] := by
      intro hBnil
      rw [hBnil] at hc
      exact absurd hc (by simp)
    obtain ⟨w, hw⟩ : ∃ w, w ++ B = A.reverse := List.dropWhile_suffix p
    have hlast : B.reverse.head? = A.reverse.getLast? := by
      rw [List.head?_reverse, ← hw, List.getLast?_append_of_ne_nil w hBne]
    have hheadA : B.reverse.head? = A.head? := by
      rw [hlast, List.getLast?_reverse]
    rw [hc] at hheadA
    cases hA2 : A with
    | nil => rw [hA2] at hheadA; simp at hheadA
    | cons a as =>
      rw [hA2] at hheadA
      have hca : c = a := by simpa using hheadA
      rw [hca]
      exact dropWhile_head_not p l a as hA2
  have hBself : B.dropWhile p = B := by
    apply dropWhile_eq_self_of_head
    intro c t hc
    exact dropWhile_head_not p A.reverse c t (by rw [← hB, hc])
  rw [hBrev, List.reverse_reverse, hBself]

theorem jsTrim_idem (s : String) : jsTrim (jsTrim s) = jsTrim s := by
  show strL (jsTrimL (strL (jsTrimL s.data)).data) = strL (jsTrimL s.data)
  rw [show (strL (jsTrimL s.data)).data = jsTrimL s.data from rfl, jsTrimL_idem]

theorem jsTrim_length_le (s : String) : (jsTrim s).length ≤ s.length := by
  show (jsTrimL s.data).length ≤ s.data.length
  unfold jsTrimL
  calc (((s.data.dropWhile jsWhitespace).reverse.dropWhile jsWhitespace).reverse).length
      = ((s.data.dropWhile jsWhitespace).reverse.dropWhile jsWhitespace).length := by
        rw [List.length_reverse]
    _ ≤ (s.data.dropWhile jsWhitespace).reverse.length :=
        (List.dropWhile_suffix jsWhitespace).length_le
    _ = (s.data.dropWhile jsWhitespace).length := by rw [List.length_reverse]
    _ ≤ s.data.length := (List.dropWhile_suffix jsWhitespace).length_le

/-! Field equations for the embedded parsers. -/

theorem parseGeneric_fields (html : String) :
    (parseGeneric html).type = detectTabType (parseGenericContent html) ∧
    (parseGeneric html).content = jsTrim (parseGenericContent html) ∧
    (parseGeneric html).parseable = decide (50 < (parseGenericContent html).length) := by
  refine ⟨?_, ?_, ?_⟩ <;> simp only [parseGeneric]

theorem parseJTotal_fields (html : String) :
    (parseJTotal html).type = detectTabType (parseJTotalContent html) ∧
    (parseJTotal html).content = jsTrim (parseJTotalContent html) ∧
    (parseJTotal html).parseable = decide (50 < (parseJTotalContent html).length) := by
  refine ⟨?_, ?_, ?_⟩ <;> simp only [parseJTotal]

theorem parseChordWiki_fields (html : String) :
    (parseChordWiki html).type = detectTabType (parseChordWikiContent html) ∧
    (parseChordWiki html).content = jsTrim (parseChordWikiContent html) ∧
    (parseChordWiki html).parseable = decide (50 < (parseChordWikiContent html).length) := by
  refine ⟨?_, ?_, ?_⟩ <;> simp only [parseChordWiki]

theorem parseUGRecord_fields (html : String) :
    (parseUGRecord html).type = detectTabType (parseUGContent html) ∧
    (parseUGRecord html).content = jsTrim (parseUGContent html) := by
  refine ⟨?_, ?_⟩ <;> simp only [parseUGRecord]

theorem parseUFretRecord_fields (html : String) :
    (parseUFretRecord html).type = TabType.chord ∧
    (parseUFretRecord html).content = jsTrim (extractChordProFromScripts html) ∧
    (parseUFretRecord html).parseable =
      decide (50 < (extractChordProFromScripts html).length) := by
  refine ⟨?_, ?_, ?_⟩ <;> simp only [parseUFretRecord]

theorem parseGeneric_empty_unknown (html : String)
    (h : (parseGeneric html).content = "") : (parseGeneric html).type = TabType.unknown := by
  rw [(parseGeneric_fields html).1]
  rw [(parseGeneric_fields html).2.1] at h
  exact detect_unknown_of_trim_empty _ h

theorem parseJTotal_empty_unknown (html : String)
    (h : (parseJTotal html).content = "") : (parseJTotal html).type = TabType.unknown := by
  rw [(parseJTotal_fields html).1]
  rw [(parseJTotal_fields html).2.1] at h
  exact detect_unknown_of_trim_empty _ h

theorem parseChordWiki_empty_unknown (html : String)
    (h : (parseChordWiki html).content = "") :
    (parseChordWiki html).type = TabType.unknown := by
  rw [(parseChordWiki_fields html).1]
  rw [(parseChordWiki_fields html).2.1] at h
  exact detect_unknown_of_trim_empty _ h

theorem parseUG_empty_unknown (html : String)
    (h : (parseUltimateGuitar html).content = "") :
    (parseUltimateGuitar html).type = TabType.unknown := by
  by_cases h0 : parseUGContent html = ""
  · have hg : parseUltimateGuitar html = parseGeneric html := by
      unfold parseUltimateGuitar
      rw [if_pos h0]
    rw [hg] at h ⊢
    exact parseGeneric_empty_unknown html h
  · have hg : parseUltimateGuitar html = parseUGRecord html := by
      unfold parseUltimateGuitar
      rw [if_neg h0]
    rw [hg] at h ⊢
    rw [(parseUGRecord_fields html).1]
    rw [(parseUGRecord_fields html).2] at h
    exact detect_unknown_of_trim_empty _ h

theorem parseUFret_empty_unknown (html : String)
    (h : (parseUFret html).content = "") :
    (parseUFret html).type = TabType.unknown := by
  by_cases h0 : extractChordProFromScripts html = "" ∨
      (extractChordProFromScripts html).length < 100
  · have hg : parseUFret html = parseGeneric html := by
      unfold parseUFret
      rw [if_pos h0]
    rw [hg] at h ⊢
    exact parseGeneric_empty_unknown html h
  · have hg : parseUFret html = parseUFretRecord html := by
      unfold parseUFret
      rw [if_neg h0]
    rw [hg] at h
    rw [(parseUFretRecord_fields html).2.1] at h
    rw [show jsTrim (extractChordProFromScripts html) = extractChordProFromScripts html from
      jsTrim_idem (chordProRaw html)] at h
    exact absurd (Or.inl h) h0

/-! Arithmetic helpers for the validator claims. -/

theorem consHead_ne_nil (c : Char) (l : List (List Char)) : consHead c l ≠ [] := by
  cases l <;> simp [consHead]

theorem splitWsL_ne_nil (l : List Char) : splitWsL l ≠ [] := by
  induction l with
  | nil => simp [splitWsL]
  | cons c rest ih =>
    by_cases hw : jsWhitespace c = true
    · cases rest with
      | nil => simp [splitWsL, hw]
      | cons d ds =>
        by_cases hd : jsWhitespace d = true
        · simpa [splitWsL, hw, hd] using ih
        · simp [splitWsL, hw, hd]
    · simp only [splitWsL, if_neg hw]
      exact consHead_ne_nil c (splitWsL rest)

theorem jsTokenCount_pos (s : String) : 0 < jsTokenCount s := by
  unfold jsTokenCount splitWs
  rw [List.length_map]
  exact List.length_pos.mpr (splitWsL_ne_nil s.data)

theorem round2_mono {a b : ℚ} (h : a ≤ b) : round2 a ≤ round2 b := by
  unfold round2
  have h2 : round (a * 100) ≤ round (b * 100) := by
    rw [round_eq, round_eq]
    exact Int.floor_mono (by linarith)
  have h3 : ((round (a * 100) : ℤ) : ℚ) ≤ ((round (b * 100) : ℤ) : ℚ) := Int.cast_le.mpr h2
  linarith

theorem round2_nonneg {a : ℚ} (h : 0 ≤ a) : 0 ≤ round2 a := by
  unfold round2
  have h2 : (0 : ℤ) ≤ round (a * 100) := by
    rw [round_eq]
    exact Int.le_floor.mpr (by push_cast; linarith)
  have h3 : (0 : ℚ) ≤ ((round (a * 100) : ℤ) : ℚ) := by exact_mod_cast h2
  linarith

theorem validateContent_ratio (s : String) (hs : s ≠ "") :
    (validateContent s).chordRatio =
      round2 (if 0 < jsTokenCount s then
        (chordMatchCount s : ℚ) / (jsTokenCount s : ℚ) else 0) := by
  rw [validateContent, if_neg hs]
  rfl

theorem parseable_of_content (r : ExtractionResult) (raw : String)
    (hc : r.content = jsTrim raw) (hpa : r.parseable = decide (50 < raw.length))
    (h50 : 50 < r.content.length) : r.parseable = true := by
  rw [hpa]
  apply decide_eq_true
  rw [hc] at h50
  have := jsTrim_length_le raw
  omega

theorem parseUFret_cp (html : String) :
    ∃ raw, (parseUFret html).content = jsTrim raw ∧
      (parseUFret html).parseable = decide (50 < raw.length) := by
  by_cases h0 : extractChordProFromScripts html = "" ∨
      (extractChordProFromScripts html).length < 100
  · have he : parseUFret html = parseGeneric html := by
      unfold parseUFret
      rw [if_pos h0]
    exact ⟨parseGenericContent html, by rw [he]; exact (parseGeneric_fields html).2.1,
      by rw [he]; exact (parseGeneric_fields html).2.2⟩
  · have he : parseUFret html = parseUFretRecord html := by
      unfold parseUFret
      rw [if_neg h0]
    exact ⟨extractChordProFromScripts html,
      by rw [he]; exact (parseUFretRecord_fields html).2.1,
      by rw [he]; exact (parseUFretRecord_fields html).2.2⟩

/-! Claim C1. -/

/-- C1, counterexample: parseTabFromHtml throws (modelled none) when the
url is not a valid absolute URL, because its first line runs the URL
constructor outside any try/catch; the claim asserts it never throws for
any url. -/
theorem parseTabFromHtml_invalid_url_throws : parseTabFromHtml "" "not a url" = none := rfl

/-- C1 as amended: for every html string and every url the URL parser
accepts, parseTabFromHtml returns an ExtractionResult and never throws;
on a url the URL parser rejects it throws a TypeError (modelled as
none). -/
theorem parseTabFromHtml_total_on_valid_url (html url host : String)
    (h : urlHostname url = some host) : ∃ r, parseTabFromHtml html url = some r := by
  simp only [parseTabFromHtml, h]
  split <;> exact ⟨_, rfl⟩

/-- C1, witness for the amended theorem at a concrete valid URL. -/
theorem parseTabFromHtml_total_on_valid_url_witness :
    urlHostname "https://example.com/x" = some "example.com" ∧
    ∃ r, parseTabFromHtml "" "https://example.com/x" = some r :=
  ⟨rfl, parseTabFromHtml_total_on_valid_url "" "https://example.com/x" "example.com" rfl⟩

/-! Claim C2. -/

/-- C2: for every html and every url whose site profile has parse mode
REDIRECT, parseTabFromHtml short-circuits to a result with empty
content, parseable false and redirectOnly true, regardless of the html
contents. -/
theorem redirect_profile_short_circuits (html url : String) (c : SiteProfile)
    (h1 : getSiteConfig url = some c) (h2 : c.parseMode = ParseMode.redirect) :
    ∃ r, parseTabFromHtml html url = some r ∧
      r.content = "" ∧ r.parseable = false ∧ r.redirectOnly = true := by
  obtain ⟨host, hh⟩ : ∃ host, urlHostname url = some host := by
    unfold getSiteConfig at h1
    cases hu : urlHostname url with
    | none => rw [hu] at h1; exact absurd h1 (by simp)
    | some h => exact ⟨h, rfl⟩
  refine ⟨⟨extractTitleFromHtml html, "", .unknown, "", none, none, false, true,
    some "此站点需要在原网页查看", none⟩, ?_, rfl, rfl, rfl⟩
  simp only [parseTabFromHtml, hh]
  rw [if_pos]
  simp [h1, h2]

/-- C2, witness: a registered redirect-only site with non-trivial html. -/
theorem redirect_profile_short_circuits_witness :
    getSiteConfig "https://fingerstyle-guitar.jp/a" =
      some ⟨"fingerstyle-guitar.jp", ParseMode.redirect, TabFormat.html, 80,
        "Fingerstyle", "ja"⟩ ∧
    ∃ r, parseTabFromHtml "<pre>x</pre>" "https://fingerstyle-guitar.jp/a" = some r ∧
      r.content = "" ∧ r.parseable = false ∧ r.redirectOnly = true :=
  ⟨rfl, redirect_profile_short_circuits "<pre>x</pre>" "https://fingerstyle-guitar.jp/a"
    ⟨"fingerstyle-guitar.jp", ParseMode.redirect, TabFormat.html, 80, "Fingerstyle", "ja"⟩
    rfl rfl⟩

/-! Claim C3. -/

/-- C3, counterexample: the Songsterr extractor returns empty content
with type Tab (and Chordify likewise returns Chord), so type is not
Unknown on empty content and is not a function of the content alone. -/
theorem songsterr_empty_content_type_tab :
    (parseTabFromHtml "" "https://songsterr.com/a").map (fun r => (r.content, r.type)) =
      some ("", TabType.tab) := rfl

/-- C3 as amended: whenever the returned content is empty the returned
type is Unknown, except for the Songsterr and Chordify extractors,
which hard-code types Tab and Chord with empty content. -/
theorem empty_content_implies_unknown_type_amended (html url host : String)
    (r : ExtractionResult)
    (hu : urlHostname url = some host)
    (hp : parseTabFromHtml html url = some r)
    (hs : routeParser (replaceOnceSub host "www." "") ≠ ParserId.songsterr)
    (hc : routeParser (replaceOnceSub host "www." "") ≠ ParserId.chordify)
    (he : r.content = "") : r.type = TabType.unknown := by
  simp only [parseTabFromHtml, hu] at hp
  by_cases hred : (getSiteConfig url).any (fun c => c.parseMode == ParseMode.redirect) = true
  · rw [if_pos hred] at hp
    cases hp
    rfl
  · rw [if_neg hred] at hp
    have hr : r = runParser (routeParser (replaceOnceSub host "www." "")) html := by
      cases hp
      rfl
    cases hpid : routeParser (replaceOnceSub host "www." "") with
    | jtotal =>
      rw [hpid, show runParser ParserId.jtotal = parseJTotal from rfl] at hr
      rw [hr] at he ⊢
      exact parseJTotal_empty_unknown html he
    | chordwiki =>
      rw [hpid, show runParser ParserId.chordwiki = parseChordWiki from rfl] at hr
      rw [hr] at he ⊢
      exact parseChordWiki_empty_unknown html he
    | ufret =>
      rw [hpid, show runParser ParserId.ufret = parseUFret from rfl] at hr
      rw [hr] at he ⊢
      exact parseUFret_empty_unknown html he
    | generic =>
      rw [hpid, show runParser ParserId.generic = parseGeneric from rfl] at hr
      rw [hr] at he ⊢
      exact parseGeneric_empty_unknown html he
    | ultimateGuitar =>
      rw [hpid, show runParser ParserId.ultimateGuitar = parseUltimateGuitar from rfl] at hr
      rw [hr] at he ⊢
      exact parseUG_empty_unknown html he
    | songsterr => exact absurd hpid hs
    | chordify => exact absurd hpid hc
    | guitarTabsCc =>
      rw [hpid, show runParser ParserId.guitarTabsCc = parseGuitarTabsCc from rfl] at hr
      unfold parseGuitarTabsCc at hr
      rw [hr] at he ⊢
      exact parseGeneric_empty_unknown html he

/-- C3, witness: an unregistered site routed to the generic extractor,
with empty html, yields empty content and type Unknown. -/
theorem empty_content_implies_unknown_type_witness :
    urlHostname "https://example.com/" = some "example.com" ∧
    parseTabFromHtml "" "https://example.com/" =
      some ⟨"Unknown", "", TabType.unknown, "", none, none, false, false, none, none⟩ ∧
    routeParser (replaceOnceSub "example.com" "www." "") ≠ ParserId.songsterr ∧
    routeParser (replaceOnceSub "example.com" "www." "") ≠ ParserId.chordify ∧
    TabType.unknown = TabType.unknown :=
  ⟨rfl, rfl, by decide, by decide,
    empty_content_implies_unknown_type_amended "" "https://example.com/" "example.com"
      ⟨"Unknown", "", TabType.unknown, "", none, none, false, false, none, none⟩
      rfl rfl (by decide) (by decide) rfl⟩

/-! Claim C4. -/

/-- C4, counterexample: at content with a leading space, the JavaScript
whitespace split counts an empty boundary token (4 tokens here, not 3),
and the returned chordRatio is rounded to two decimals, so the record
differs from the claim's lines/ratio formula. -/
theorem validateContent_differs_from_spec_ratio :
    validateContent " C x q q q q" = ⟨false, 1, (7 : ℚ)/50⟩ ∧
    validateContentSpec " C x q q q q" = ⟨false, 1, (1 : ℚ)/6⟩ ∧
    ((7 : ℚ)/50) ≠ (1 : ℚ)/6 := by
  refine ⟨?_, ?_, by norm_num⟩
  · have h1 : jsMatchAll chordRe " C x q q q q" = ["C"] := by rfl
    have h2 : splitWs " C x q q q q" = ["", "C", "x", "q", "q", "q", "q"] := by rfl
    have h3 : (splitNl " C x q q q q").filter (fun line => jsTrim line != "") =
        [" C x q q q q"] := by rfl
    rw [validateContent, if_neg (by decide)]
    rw [h1, h2, h3]
    norm_num [round2, round_eq]
  · have h1 : chordMatchCount " C x q q q q" = 1 := by rfl
    have h2 : wsTokenCountSpec " C x q q q q" = 6 := by rfl
    have h3 : nonBlankLineCount " C x q q q q" = 1 := by rfl
    rw [validateContentSpec, if_neg (by decide)]
    rw [h1, h2, h3]
    norm_num

/-- C4 as amended: validateContent returns the non-blank line count, the
two-decimal rounding of (chord matches / JavaScript whitespace-split
token count, boundary empties included), and validity computed from the
unrounded ratio at thresholds 20 lines and 0.05. -/
theorem validateContent_amended_spec (content : String) :
    validateContent content = validateContentAmended content := by
  by_cases h : content = ""
  · subst h; rfl
  · rw [validateContent, validateContentAmended, if_neg h, if_neg h]
    simp only [rawChordRatio, nonBlankLineCount, chordMatchCount, jsTokenCount, if_neg h]

/-! Claim C5. -/

/-- C5, counterexample: content with exactly two distinct chord matches
but four total matches (and no tab-line match) classifies as Chord, not
Unknown — the classifier counts matches with multiplicity. -/
theorem detectTabType_two_distinct_chords_not_unknown :
    detectTabType "C G C G" = TabType.chord ∧
    distinctChordMatchCount "C G C G" = 2 ∧
    tabMatchCount "C G C G" = 0 := ⟨rfl, rfl, rfl⟩

/-- C5 as amended: the classifier decides in priority order on match
counts taken with multiplicity: four or more tab-line matches give Tab,
upgraded to Fingerstyle at ten or more matches with a technique marker
anywhere in the text; otherwise three or more chord matches give
Chord; otherwise Unknown. -/
theorem detectTabType_priority_decision_amended (content : String) :
    (4 ≤ tabMatchCount content →
      detectTabType content =
        (if hasTechniqueMarker content && decide (10 ≤ tabMatchCount content) then
          TabType.fingerstyle else TabType.tab)) ∧
    (tabMatchCount content < 4 → 3 ≤ chordMatchCount content →
      detectTabType content = TabType.chord) ∧
    (tabMatchCount content < 4 → chordMatchCount content < 3 →
      detectTabType content = TabType.unknown) := by
  by_cases hc : content = ""
  · subst hc
    refine ⟨fun h4 => absurd h4 (by decide), fun _ h3 => absurd h3 (by decide),
      fun _ _ => rfl⟩
  · simp only [detectTabType, tabMatchCount, chordMatchCount, hasTechniqueMarker, if_neg hc]
    refine ⟨fun h4 => ?_, fun hlt h3 => ?_, fun hlt hlt3 => ?_⟩
    · rw [if_pos h4]
    · rw [if_neg (by omega), if_pos h3]
    · rw [if_neg (by omega), if_neg (by omega)]

/-- C5, witness: the chord clause of the amended decision at a concrete
input with four chord matches and no tab match. -/
theorem detectTabType_priority_decision_witness :
    tabMatchCount "C G C G" < 4 ∧ 3 ≤ chordMatchCount "C G C G" ∧
    detectTabType "C G C G" = TabType.chord :=
  ⟨by decide, by decide,
    (detectTabType_priority_decision_amended "C G C G").2.1 (by decide) (by decide)⟩

/-! Claim C6. -/

/-- C6, counterexample: the lookup removes the first occurrence of www.
anywhere in the hostname, so the unregistered host
fingerstyle-guitar.jwww.p is rewritten to the registered key
fingerstyle-guitar.jp and matched, where the claim's leading-strip
procedure returns null. -/
theorem getSiteConfig_nonleading_www_match :
    getSiteConfig "https://fingerstyle-guitar.jwww.p/" =
      some ⟨"fingerstyle-guitar.jp", ParseMode.redirect, TabFormat.html, 80,
        "Fingerstyle", "ja"⟩ ∧
    getSiteConfigSpec "https://fingerstyle-guitar.jwww.p/" = none := ⟨rfl, rfl⟩

/-- C6 as amended: the registry lookup removes the first occurrence of
www. anywhere in the hostname (not only a leading one), then returns the
exact match if any, else the first declaration-order profile whose
pattern the hostname ends with or contains, else null. -/
theorem getSiteConfig_amended_replace_first (url : String) :
    getSiteConfig url = getSiteConfigAmended url := by
  cases h : urlHostname url <;>
    simp [getSiteConfig, getSiteConfigAmended, lookupSiteSpec, h]

/-! Claim C7. -/

/-- C7, counterexample: a script whose body is 50 characters or shorter
is dropped by the extractor before tokenization, while the claim's
pipeline (which has no body-length filter) keeps its chord-marked
string. -/
theorem extractChordPro_short_script_dropped :
    extractChordProFromScripts "<script a>\"aaaaaaaaaaaaaaaa[Am]\"</script>" = "" ∧
    chordProPipelineSpec "<script a>\"aaaaaaaaaaaaaaaa[Am]\"</script>" =
      "aaaaaaaaaaaaaaaa[Am]" := ⟨rfl, rfl⟩

/-- C7 as amended: the extractor equals the claim's pipeline with two
additions — only script bodies longer than 50 characters are scanned,
and the final joined text is trimmed. -/
theorem extractChordPro_amended_pipeline (html : String) :
    extractChordProFromScripts html = chordProPipelineAmended html := by
  have he : (fun s : String => !decide (s.length < 20) && looksLikeChordLine s) =
      (fun s : String => decide (20 ≤ s.length) && looksLikeChordLine s) := by
    funext s
    by_cases h : s.length < 20 <;> simp [h, Nat.not_lt, Nat.le_of_not_lt]
  unfold extractChordProFromScripts chordProRaw chordProPipelineAmended scriptBodies
  rw [he]

/-! Claim C8. -/

/-- C8: isParseable is true exactly when the resolved site profile's
parse mode is SERVER (the registry's ParseMode enumeration has no
CLIENT value, so the claim's SERVER-or-CLIENT condition reduces to
SERVER); redirect-only and unregistered sites yield false. -/
theorem isParseable_iff_server_mode (url : String) :
    isParseable url = true ↔
      ∃ c, getSiteConfig url = some c ∧ c.parseMode = ParseMode.server := by
  unfold isParseable
  cases h : getSiteConfig url <;> simp [h]

/-! Claim C9. -/

/-- C9, counterexample: a token can carry several chord matches, so the
ratio can exceed 1, and appending the well-formed chord line C G C G
(every token a single chord match) then strictly decreases the
chordRatio. -/
theorem chordRatio_decreases_on_append :
    (validateContent "C,G\nC G C G").chordRatio < (validateContent "C,G").chordRatio ∧
    jsTokenCount "C G C G" ≤ chordMatchCount "C G C G" := by
  constructor
  · have ha : (validateContent "C,G").chordRatio = 2 := by
      rw [validateContent_ratio "C,G" (by decide),
        if_pos (jsTokenCount_pos "C,G"),
        show chordMatchCount "C,G" = 2 from rfl,
        show jsTokenCount "C,G" = 1 from rfl]
      norm_num [round2, round_eq]
    have hb : (validateContent "C,G\nC G C G").chordRatio = (6 : ℚ)/5 := by
      rw [validateContent_ratio "C,G\nC G C G" (by decide),
        if_pos (jsTokenCount_pos "C,G\nC G C G"),
        show chordMatchCount "C,G\nC G C G" = 6 from rfl,
        show jsTokenCount "C,G\nC G C G" = 5 from rfl]
      norm_num [round2, round_eq]
    rw [ha, hb]
    norm_num
  · decide

/-- C9 as amended: appending chord-bearing lines never decreases the
chordRatio provided the token and chord-match counts decompose
additively across the newline boundary, each appended token carries at
least one chord match, and the original content's ratio is at most 1
(matches bounded by tokens) — without the last condition the
counterexample applies. -/
theorem chordRatio_monotone_amended (content ls : String)
    (h1 : jsTokenCount (content ++ "\n" ++ ls) = jsTokenCount content + jsTokenCount ls)
    (h2 : chordMatchCount (content ++ "\n" ++ ls) =
      chordMatchCount content + chordMatchCount ls)
    (h3 : chordMatchCount content ≤ jsTokenCount content)
    (h4 : jsTokenCount ls ≤ chordMatchCount ls) :
    (validateContent content).chordRatio ≤
      (validateContent (content ++ "\n" ++ ls)).chordRatio := by
  have hne : content ++ "\n" ++ ls ≠ "" := by
    intro hcon
    have hlen := congrArg String.length hcon
    rw [String.length_append, String.length_append,
      show ("\n" : String).length = 1 from rfl,
      show ("" : String).length = 0 from rfl] at hlen
    omega
  have hratio_nonneg : (0 : ℚ) ≤
      (if 0 < jsTokenCount (content ++ "\n" ++ ls) then
        (chordMatchCount (content ++ "\n" ++ ls) : ℚ) /
          (jsTokenCount (content ++ "\n" ++ ls) : ℚ) else 0) := by
    split
    · positivity
    · exact le_refl 0
  by_cases hc : content = ""
  · have hz : (validateContent content).chordRatio = 0 := by rw [hc]; rfl
    rw [hz, validateContent_ratio _ hne]
    exact round2_nonneg hratio_nonneg
  · rw [validateContent_ratio content hc, validateContent_ratio _ hne,
      if_pos (jsTokenCount_pos content), if_pos (jsTokenCount_pos _)]
    apply round2_mono
    rw [h1, h2]
    have hb : 0 < jsTokenCount content := jsTokenCount_pos content
    have hd : 0 < jsTokenCount ls := jsTokenCount_pos ls
    have e1 : (chordMatchCount content : ℚ) ≤ (jsTokenCount content : ℚ) := by
      exact_mod_cast h3
    have e2 : (jsTokenCount ls : ℚ) ≤ (chordMatchCount ls : ℚ) := by exact_mod_cast h4
    have hbq : (0 : ℚ) < (jsTokenCount content : ℚ) := by exact_mod_cast hb
    have hdq : (0 : ℚ) < (jsTokenCount ls : ℚ) := by exact_mod_cast hd
    rw [div_le_div_iff₀ hbq (by push_cast; linarith)]
    push_cast
    nlinarith [mul_nonneg (sub_nonneg.mpr e1) (le_of_lt hdq),
      mul_nonneg (sub_nonneg.mpr e2) (le_of_lt hbq)]

/-- C9, witness: appending the chord line C G to the content C x (ratio
one half) does not decrease the ratio. -/
theorem chordRatio_monotone_witness :
    jsTokenCount "C x\nC G" = jsTokenCount "C x" + jsTokenCount "C G" ∧
    chordMatchCount "C x\nC G" = chordMatchCount "C x" + chordMatchCount "C G" ∧
    chordMatchCount "C x" ≤ jsTokenCount "C x" ∧
    jsTokenCount "C G" ≤ chordMatchCount "C G" ∧
    (validateContent "C x").chordRatio ≤ (validateContent "C x\nC G").chordRatio :=
  ⟨by decide, by decide, by decide, by decide,
    chordRatio_monotone_amended "C x" "C G" (by decide) (by decide) (by decide) (by decide)⟩

/-! Claim C10. -/

/-- C10, counterexample: 26 empty pre blocks followed by one holding ab
produce a pre-trim text of 54 characters (blank-line joiners) whose
trim is the 2-character ab, so the returned record has content of 50
characters or fewer together with parseable true. -/
theorem parseable_true_with_short_content :
    (parseGeneric "<pre></pre><pre></pre><pre></pre><pre></pre><pre></pre><pre></pre><pre></pre><pre></pre><pre></pre><pre></pre><pre></pre><pre></pre><pre></pre><pre></pre><pre></pre><pre></pre><pre></pre><pre></pre><pre></pre><pre></pre><pre></pre><pre></pre><pre></pre><pre></pre><pre></pre><pre></pre><pre>ab</pre>").content = "ab" ∧
    (parseGeneric "<pre></pre><pre></pre><pre></pre><pre></pre><pre></pre><pre></pre><pre></pre><pre></pre><pre></pre><pre></pre><pre></pre><pre></pre><pre></pre><pre></pre><pre></pre><pre></pre><pre></pre><pre></pre><pre></pre><pre></pre><pre></pre><pre></pre><pre></pre><pre></pre><pre></pre><pre></pre><pre>ab</pre>").content.length ≤ 50 ∧
    (parseGeneric "<pre></pre><pre></pre><pre></pre><pre></pre><pre></pre><pre></pre><pre></pre><pre></pre><pre></pre><pre></pre><pre></pre><pre></pre><pre></pre><pre></pre><pre></pre><pre></pre><pre></pre><pre></pre><pre></pre><pre></pre><pre></pre><pre></pre><pre></pre><pre></pre><pre></pre><pre></pre><pre>ab</pre>").parseable = true :=
  ⟨rfl, by decide, rfl⟩

/-- C10 as amended: each non-redirect extractor sets parseable to
(pre-trim extracted text length > 50) while the returned content is the
trim of that text; hence content longer than 50 characters forces
parseable true, but parseable can be true with a short content when the
surrounding whitespace pushed the pre-trim text over 50 characters. -/
theorem parseable_reflects_pretrim_length_amended (html : String) :
    ((parseGeneric html).content = jsTrim (parseGenericContent html) ∧
      (parseGeneric html).parseable = decide (50 < (parseGenericContent html).length)) ∧
    ((parseJTotal html).content = jsTrim (parseJTotalContent html) ∧
      (parseJTotal html).parseable = decide (50 < (parseJTotalContent html).length)) ∧
    ((parseChordWiki html).content = jsTrim (parseChordWikiContent html) ∧
      (parseChordWiki html).parseable = decide (50 < (parseChordWikiContent html).length)) ∧
    (∃ raw, (parseUFret html).content = jsTrim raw ∧
      (parseUFret html).parseable = decide (50 < raw.length)) ∧
    (∀ r : ExtractionResult,
      r = parseGeneric html ∨ r = parseJTotal html ∨ r = parseChordWiki html ∨
        r = parseUFret html →
      50 < r.content.length → r.parseable = true) := by
  refine ⟨⟨(parseGeneric_fields html).2.1, (parseGeneric_fields html).2.2⟩,
    ⟨(parseJTotal_fields html).2.1, (parseJTotal_fields html).2.2⟩,
    ⟨(parseChordWiki_fields html).2.1, (parseChordWiki_fields html).2.2⟩,
    parseUFret_cp html, ?_⟩
  intro r hr h50
  rcases hr with hr | hr | hr | hr
  · rw [hr] at h50 ⊢
    exact parseable_of_content _ _ (parseGeneric_fields html).2.1
      (parseGeneric_fields html).2.2 h50
  · rw [hr] at h50 ⊢
    exact parseable_of_content _ _ (parseJTotal_fields html).2.1
      (parseJTotal_fields html).2.2 h50
  · rw [hr] at h50 ⊢
    exact parseable_of_content _ _ (parseChordWiki_fields html).2.1
      (parseChordWiki_fields html).2.2 h50
  · rw [hr] at h50 ⊢
    obtain ⟨raw, hcn, hpa⟩ := parseUFret_cp html
    exact parseable_of_content _ _ hcn hpa h50

/-- C10, witness: the implication clause of the amended theorem at a pre
block holding 52 characters. -/
theorem parseable_reflects_pretrim_length_witness :
    (parseGeneric "<pre>aaaaaaaaaaaaaaaaaaaaaaaaaaaaaaaaaaaaaaaaaaaaaaaaaaaa</pre>").parseable = true :=
  (parseable_reflects_pretrim_length_amended "<pre>aaaaaaaaaaaaaaaaaaaaaaaaaaaaaaaaaaaaaaaaaaaaaaaaaaaa</pre>").2.2.2.2
    (parseGeneric "<pre>aaaaaaaaaaaaaaaaaaaaaaaaaaaaaaaaaaaaaaaaaaaaaaaaaaaa</pre>") (Or.inl rfl) (by decide)

end Gita
